import Mathlib

/-!
Verification of the `se-mailbox` package: a shallow embedding of
`se_mailbox/filelock.py` (the `FileLock` class) and
`se_mailbox/se_mailbox.py` (the `QuotaMixin` class), together with
theorems settling the specification claims about them.

Filesystem interaction is made explicit: the quota cache file is a
`Option (List String)` (`none` = file absent, otherwise the list of its
newline-terminated lines, stored without the trailing newline), the
message store is a `List (String × Nat)` of keys and stat-reported byte
sizes, and the lock artifact is a `Bool` (present or absent).  Lock
acquisition outcomes and I/O failures are passed as explicit parameters
where the Python code would observe them through the OS.
-/

deriving instance DecidableEq for Except

namespace SeMailbox

/-! ## Python string primitives used by the embedding

String scanning is defined structurally over `String.data` so that every
definition evaluates inside the kernel on concrete inputs. -/

/-- Split a character list at every character satisfying `p`, keeping
empty pieces (so the result always has one more piece than there are
separators). -/
def splitPred (p : Char → Bool) : List Char → List (List Char)
  | [] => [[]]
  | x :: rest =>
    match splitPred p rest with
    | [] => if p x then [[], []] else [[x]]
    | h :: t => if p x then [] :: h :: t else (x :: h) :: t

/-- Python `s.split(",")`: split on every comma, keeping empty pieces;
the empty string yields `[""]`. -/
def splitOnComma (s : String) : List String :=
  (splitPred (fun c => c = ',') s.data).map String.mk

/-- Python `s.strip()`: remove leading and trailing whitespace. -/
def pyStrip (s : String) : String :=
  String.mk
    (((s.data.dropWhile Char.isWhitespace).reverse.dropWhile
        Char.isWhitespace).reverse)

/-- Python `s[-1]` on a nonempty string (callers guard emptiness). -/
def lastChar (s : String) : Char :=
  s.data.getLastD 'A'

/-- Python `s[:-1]`: the string without its final character. -/
def dropLastChar (s : String) : String :=
  String.mk s.data.dropLast

/-- The digits of a decimal literal, as in Python `int`: at least one
character and every character a digit. -/
def digitsToNat? (cs : List Char) : Option Nat :=
  match cs with
  | [] => none
  | _ =>
    if cs.all Char.isDigit then
      some (cs.foldl (fun a c => a * 10 + (c.toNat - 48)) 0)
    else
      none

/-- Python `int(s)` on a string: optional surrounding whitespace, an
optional sign, then decimal digits; `none` models `ValueError`. -/
def parseInt? (s : String) : Option Int :=
  match (pyStrip s).data with
  | '-' :: rest => (digitsToNat? rest).map (fun n => -(n : Int))
  | '+' :: rest => (digitsToNat? rest).map Int.ofNat
  | cs => (digitsToNat? cs).map Int.ofNat

/-- Python `s.split()` with no argument: split on whitespace runs,
dropping empty pieces. -/
def pySplitWhite (s : String) : List String :=
  ((splitPred Char.isWhitespace s.data).map String.mk).filter
    (fun t => t ≠ "")

/-! ## `filelock.FileLock` -/

namespace Filelock

/-- Outcome of `FileLock.acquire`.  `acquired k` means the
`os.open(..., O_CREAT | O_EXCL | O_RDWR)` call succeeded on attempt `k`;
`timedOut` is the `FileLockException("Timeout occurred.")` branch;
`fuelOut` marks exhaustion of the recursion bound and is unreachable for
the bound chosen in `acquire` whenever `delay > 0`. -/
inductive AcquireResult where
  | acquired (attempt : Nat)
  | timedOut
  | fuelOut
deriving DecidableEq, Repr

/-- The retry loop of `FileLock.acquire`.  `env k` tells whether the
lockfile exists when attempt `k` is made (the exclusive create fails
exactly when it exists).  Attempt `k` happens `k * delay` time units
after the first attempt: after a failed attempt the code raises if
`time.time() - start_time >= timeout` and otherwise sleeps `delay` and
retries. -/
def acquireLoop (env : Nat → Bool) (timeout delay : Nat) :
    Nat → Nat → AcquireResult
  | 0, _ => .fuelOut
  | fuel + 1, k =>
    if env k = false then
      .acquired k
    else if timeout ≤ k * delay then
      .timedOut
    else
      acquireLoop env timeout delay fuel (k + 1)

/-- `FileLock.acquire` run against the lockfile-existence history `env`.
The recursion bound `timeout / delay + 2` exceeds the number of attempts
the loop can make before the timeout check fires (when `delay > 0`). -/
def acquire (env : Nat → Bool) (timeout delay : Nat) : AcquireResult :=
  acquireLoop env timeout delay (timeout / delay + 2) 0

/-- The in-memory and on-disk state of one `FileLock` instance:
`is_locked` is the instance attribute of that name, `lockfileExists`
whether the lock artifact is present on disk. -/
structure LockState where
  is_locked : Bool
  lockfileExists : Bool
deriving DecidableEq, Repr

/-- `FileLock.release`: if `is_locked`, close the fd and `os.unlink` the
lockfile — the unlink raises `OSError` (modelled as `.error ()`) when
the artifact is already gone, in which case `is_locked` is never reset —
otherwise do nothing. -/
def release (s : LockState) : LockState × Except Unit Unit :=
  if s.is_locked then
    if s.lockfileExists then
      (⟨false, false⟩, .ok ())
    else
      (s, .error ())
  else
    (s, .ok ())

/-- What the body of a `with FileLock(...)` block does. -/
inductive BodyOutcome where
  | normal
  | raises
deriving DecidableEq, Repr

/-- How a `with FileLock(...)` statement finished. -/
inductive WithResult where
  | completed
  | bodyRaised
  | enterTimedOut
  | enterFuelOut
  | releaseRaised
deriving DecidableEq, Repr

/-- A whole `with FileLock(...)` statement: `__enter__` acquires when
`is_locked` is false (if that acquire times out the block is never
entered and `__exit__` never runs); the body then runs; `__exit__`
releases when `is_locked`.  A body exception propagates after the
release (`__exit__` returns `None`). -/
def withLock (s : LockState) (timeout delay : Nat) (body : BodyOutcome) :
    LockState × WithResult :=
  if s.is_locked then
    let (s2, r) := release s
    match r with
    | .error _ => (s2, .releaseRaised)
    | .ok _ => (s2, if body = .normal then .completed else .bodyRaised)
  else
    match acquire (fun _ => s.lockfileExists) timeout delay with
    | .acquired _ =>
      let (s2, r) := release ⟨true, true⟩
      match r with
      | .error _ => (s2, .releaseRaised)
      | .ok _ => (s2, if body = .normal then .completed else .bodyRaised)
    | .timedOut => (s, .enterTimedOut)
    | .fuelOut => (s, .enterFuelOut)

/-- Two `FileLock` instances sharing one lockfile path: the artifact on
disk and each instance's `is_locked` attribute. -/
structure LockSys where
  lockfileExists : Bool
  held1 : Bool
  held2 : Bool
deriving DecidableEq, Repr

/-- An action by one of the two instances. -/
inductive LockAction where
  | acquire1
  | acquire2
  | release1
  | release2
deriving DecidableEq, Repr

/-- One step of the two-instance system.  An `acquire` succeeds exactly
when the exclusive create succeeds, i.e. when the artifact is absent;
when it is present the acquire retries and eventually times out, leaving
the state unchanged.  A `release` by a holder closes and unlinks the
artifact. -/
def lockStep : LockSys → LockAction → LockSys
  | s, .acquire1 => if s.lockfileExists then s else ⟨true, true, s.held2⟩
  | s, .acquire2 => if s.lockfileExists then s else ⟨true, s.held1, true⟩
  | s, .release1 => if s.held1 then ⟨false, false, s.held2⟩ else s
  | s, .release2 => if s.held2 then ⟨false, s.held1, false⟩ else s

/-- States reachable from two fresh `FileLock` instances on the same
path with no artifact on disk. -/
inductive Reachable : LockSys → Prop
  | init : Reachable ⟨false, false, false⟩
  | step {s : LockSys} (h : Reachable s) (a : LockAction) :
      Reachable (lockStep s a)

end Filelock

/-! ## `se_mailbox.QuotaMixin` -/

namespace Quota

mutual
/-- A folder's message tree as `QuotaMixin.recalculate` observes it:
the stat-reported sizes of the files in `cur` and in `new`, and the
named subfolders (`list_folders()` / `get_folder()`). -/
inductive Folder where
  | node (cur new : List Nat) (subs : Subfolders)
deriving DecidableEq
/-- The list of a folder's named subfolders. -/
inductive Subfolders where
  | nil
  | cons (name : String) (f : Folder) (rest : Subfolders)
deriving DecidableEq
end

/-- The subfolder list as a plain list of name/folder pairs. -/
def subfolderList : Subfolders → List (String × Folder)
  | .nil => []
  | .cons name f rest => (name, f) :: subfolderList rest

mutual
/-- The directory walk of `QuotaMixin.recalculate`: sum of stat sizes
and count of the files in `cur` and `new`, plus the recursive totals of
every subfolder except `Trash`. -/
def recalculate : Folder → Nat × Nat
  | .node cur new subs =>
    (cur.sum + new.sum + (recalcSubs subs).1,
     cur.length + new.length + (recalcSubs subs).2)
/-- The subfolder loop of `QuotaMixin.recalculate`. -/
def recalcSubs : Subfolders → Nat × Nat
  | .nil => (0, 0)
  | .cons name f rest =>
    let r := recalcSubs rest
    if name = "Trash" then r
    else ((recalculate f).1 + r.1, (recalculate f).2 + r.2)
end

/-- Python truthiness of a quota attribute (`None` and `0` are falsy). -/
def qTruthy : Option Int → Bool
  | none => false
  | some n => n != 0

/-- The list comprehension shared by `recalculate` and `set_quota`:
`["%d%s" % (q, l) for l, q in (("S", size), ("C", count)) if q]`. -/
def quotaMarkers (size_quota count_quota : Option Int) : List String :=
  (if qTruthy size_quota then [toString (size_quota.getD 0) ++ "S"] else []) ++
  (if qTruthy count_quota then [toString (count_quota.getD 0) ++ "C"] else [])

/-- The header line `",".join(quotas)` written by `recalculate` and
`set_quota`. -/
def quotaHeader (size_quota count_quota : Option Int) : String :=
  String.intercalate "," (quotaMarkers size_quota count_quota)

/-- `"%s" % (q or "")`: the string Python prints for a quota attribute
under `or ""`. -/
def pyStrOrEmpty (q : Option Int) : String :=
  match q with
  | some n => if n != 0 then toString n else ""
  | none => ""

/-- The header line `"%s %s\n" % (self.size_quota or "", self.count_quota
or "")` that `QuotaMixin.add` writes when the cache file is missing. -/
def addHeader (size_quota count_quota : Option Int) : String :=
  pyStrOrEmpty size_quota ++ " " ++ pyStrOrEmpty count_quota

/-- The byte size `os.stat` reports for the cache file, each line being
written with a trailing newline. -/
def fileSize (lines : List String) : Nat :=
  (lines.map (fun l => l.length + 1)).sum

/-- One pass of the quota-entry loop in `QuotaMixin.get_quota`: entries
ending in `S` set `size_quota`, entries ending in `C` set `count_quota`,
empty entries and entries with any other last character are skipped;
`int()` on a malformed number raises `ValueError` (`.error ()`). -/
def parseQuotaEntries :
    List String → Option Int → Option Int →
    Except Unit (Option Int × Option Int)
  | [], sq, cq => .ok (sq, cq)
  | q :: rest, sq, cq =>
    if q = "" then
      parseQuotaEntries rest sq cq
    else if lastChar q = 'S' then
      match parseInt? (dropLastChar q) with
      | some n => parseQuotaEntries rest (some n) cq
      | none => .error ()
    else if lastChar q = 'C' then
      match parseInt? (dropLastChar q) with
      | some n => parseQuotaEntries rest sq (some n)
      | none => .error ()
    else
      parseQuotaEntries rest sq cq

/-- `QuotaMixin.get_quota`: both quotas start as `None`; a missing cache
file returns immediately, an `OSError` while opening/reading the file
(`readable = false`) is caught and also leaves both unset; otherwise the
first line is stripped, split on `","` and parsed entry by entry. -/
def get_quota (cache : Option (List String)) (readable : Bool) :
    Except Unit (Option Int × Option Int) :=
  match cache with
  | none => .ok (none, none)
  | some lines =>
    if readable then
      parseQuotaEntries (splitOnComma (pyStrip (lines.headD ""))) none none
    else
      .ok (none, none)

/-- Whether one `FileLock` scope inside `QuotaMixin` acquired the lock
(`ok`) or raised `FileLockException` on entry (`timeout`). -/
inductive LockOutcome where
  | ok
  | timeout
deriving DecidableEq, Repr

/-- Whether the writes inside the lock scope succeeded or raised a
non-lock I/O error such as `PermissionError` or `ENOSPC`. -/
inductive WriteOutcome where
  | ok
  | ioError
deriving DecidableEq, Repr

/-- `QuotaMixin.recalculate` in full: walk the tree, refresh the quota
attributes with `get_quota()` (whose `ValueError` on a corrupt header
propagates), then rewrite the cache file — header line plus one
`"%d %d"` detail line — under the lock, swallowing a lock timeout; the
totals are returned either way. -/
def recalculateOp (f : Folder) (cache : Option (List String))
    (lock : LockOutcome) :
    Except Unit (Option (List String) × (Nat × Nat)) :=
  let t := recalculate f
  match get_quota cache true with
  | .error e => .error e
  | .ok (sq, cq) =>
    match lock with
    | .timeout => .ok (cache, t)
    | .ok =>
      .ok (some [quotaHeader sq cq, toString t.1 ++ " " ++ toString t.2], t)

/-- The state `QuotaMixin.add` / `QuotaMixin.remove` act on: the message
store (key to stat-reported byte size), the cache file, and the
in-memory quota attributes. -/
structure MailState where
  messages : List (String × Nat)
  cache : Option (List String)
  size_quota : Option Int
  count_quota : Option Int
deriving DecidableEq

/-- `self._lookup(key)` followed by `os.stat(...).st_size`. -/
def lookupSize (msgs : List (String × Nat)) (key : String) : Option Nat :=
  (msgs.find? (fun p => p.1 = key)).map Prod.snd

/-- Deleting the message file stored under `key`. -/
def removeKey (msgs : List (String × Nat)) (key : String) :
    List (String × Nat) :=
  msgs.filter (fun p => p.1 ≠ key)

/-- `QuotaMixin.add`: the message is stored first (`super().add`), its
stored file is stat'ed, and then the cache update runs inside
`try/except FileLockException`: on `lock = timeout` the write is skipped
silently; with the lock held, a missing cache file is created with the
`addHeader` line, then the `"%d 1"` detail line is appended; a non-lock
I/O error (`wr = ioError`) propagates.  The final state is returned next
to the result so that the already-performed message store is visible
even on error. -/
def add (st : MailState) (key : String) (msgSize : Nat)
    (lock : LockOutcome) (wr : WriteOutcome) :
    MailState × Except Unit (String × Nat) :=
  let st1 := { st with messages := st.messages ++ [(key, msgSize)] }
  match lock with
  | .timeout => (st1, .ok (key, msgSize))
  | .ok =>
    match wr with
    | .ioError => (st1, .error ())
    | .ok =>
      let newCache :=
        match st1.cache with
        | some lines => some (lines ++ [toString msgSize ++ " 1"])
        | none =>
          some [addHeader st.size_quota st.count_quota,
                toString msgSize ++ " 1"]
      ({ st1 with cache := newCache }, .ok (key, msgSize))

/-- `QuotaMixin.remove`: the message file is stat'ed first (the size is
taken before deletion), the `"-%d -1"` detail line is appended inside
`try/except FileLockException` (`open(..., "a")` creates a missing
file), and only then is the message removed (`super().remove`).  A
missing key raises `KeyError` in `_lookup`; a non-lock I/O error during
the append propagates before the message is removed. -/
def remove (st : MailState) (key : String)
    (lock : LockOutcome) (wr : WriteOutcome) :
    MailState × Except Unit Nat :=
  match lookupSize st.messages key with
  | none => (st, .error ())
  | some sz =>
    match lock with
    | .timeout =>
      ({ st with messages := removeKey st.messages key }, .ok sz)
    | .ok =>
      match wr with
      | .ioError => (st, .error ())
      | .ok =>
        ({ st with
            messages := removeKey st.messages key,
            cache := some ((st.cache.getD []) ++
              ["-" ++ toString sz ++ " -1"]) }, .ok sz)

/-- Parsing one detail line of the cache file in `QuotaMixin.size`:
`size, count = line.split()` followed by `int(size)`, `int(count)`;
`none` models the `ValueError` raised on a malformed line. -/
def parseDetail (line : String) : Option (Int × Int) :=
  match pySplitWhite line with
  | [a, b] =>
    match parseInt? a, parseInt? b with
    | some x, some y => some (x, y)
    | _, _ => none
  | _ => none

/-- Parsing every detail line (the lines after the header). -/
def parseDetails : List String → Option (List (Int × Int))
  | [] => some []
  | l :: rest =>
    match parseDetail l, parseDetails rest with
    | some p, some ps => some (p :: ps)
    | _, _ => none

/-- A quota attribute compared against a running total, Python
`q and total > q`: falsy quotas (`None`, `0`) never trigger. -/
def quotaExceededBy (q : Option Int) (total : Int) : Bool :=
  match q with
  | none => false
  | some n => n != 0 && decide (n < total)

/-- The state `QuotaMixin.size` reads: the folder tree (consulted by
`recalculate`), the cache file, its age `time.time() - st_mtime` in
seconds, and the in-memory quota attributes. -/
structure QuotaState where
  folder : Folder
  cacheLines : Option (List String)
  cacheAge : Nat
  size_quota : Option Int
  count_quota : Option Int
deriving DecidableEq

/-- What `QuotaMixin.size` did: recalculated (returning the fresh walk
totals) or returned the summed cached detail lines. -/
inductive SizeOutcome where
  | recalc (totals : Nat × Nat)
  | cached (totalSize totalCount : Int)
deriving DecidableEq

/-- `QuotaMixin.size`: recalculate when the cache file is missing or its
stat size exceeds 5120 bytes; otherwise sum the detail lines (a
malformed line raises `ValueError`), and recalculate when a truthy quota
is exceeded by the summed totals and additionally the `enumerate` index
`i` stayed `0` — which happens when there are at most *one* detail
line — or the file is older than `15 * 60` seconds; otherwise return the
summed totals. -/
def size (st : QuotaState) : Except Unit SizeOutcome :=
  match st.cacheLines with
  | none => .ok (.recalc (recalculate st.folder))
  | some lines =>
    if 5120 < fileSize lines then
      .ok (.recalc (recalculate st.folder))
    else
      match parseDetails lines.tail with
      | none => .error ()
      | some pairs =>
        let totalSize := (pairs.map Prod.fst).sum
        let totalCount := (pairs.map Prod.snd).sum
        if (quotaExceededBy st.count_quota totalCount ||
              quotaExceededBy st.size_quota totalSize) &&
            (decide (pairs.length ≤ 1) || decide (900 < st.cacheAge)) then
          .ok (.recalc (recalculate st.folder))
        else
          .ok (.cached totalSize totalCount)

/-- The staleness condition exactly as claim C3 words it (differing from
`size` only in demanding the cache be *empty* of detail lines where the
code tests `i == 0`, i.e. at most one detail line): the cache file is
missing; or it exceeds the size threshold; or a quota is exceeded and
the cache has no detail lines or is older than the recency window. -/
def claimStale (st : QuotaState) : Bool :=
  match st.cacheLines with
  | none => true
  | some lines =>
    decide (5120 < fileSize lines) ||
    (match parseDetails lines.tail with
     | none => false
     | some pairs =>
       (quotaExceededBy st.count_quota ((pairs.map Prod.snd).sum) ||
          quotaExceededBy st.size_quota ((pairs.map Prod.fst).sum)) &&
       (pairs.isEmpty || decide (900 < st.cacheAge)))

/-- `QuotaMixin.set_quota`: the in-memory attributes are set, then under
the lock (no `try/except`, so a lock timeout propagates) the existing
lines are read (`lines = [""]` when the file is missing), `lines[0]` is
replaced by the new header — an `IndexError` when an existing file has
no lines at all — and the file is rewritten. -/
def set_quota (size_quota count_quota : Option Int)
    (lock : LockOutcome) (cache : Option (List String)) :
    Option (List String) × Except Unit Unit :=
  match lock with
  | .timeout => (cache, .error ())
  | .ok =>
    match cache with
    | none => (some [quotaHeader size_quota count_quota], .ok ())
    | some [] => (some [], .error ())
    | some (_ :: rest) =>
      (some (quotaHeader size_quota count_quota :: rest), .ok ())

end Quota

/-! ## Helper lemmas -/

namespace Filelock

/-- One unfolding step of the retry loop. -/
theorem acquireLoop_succ (env : Nat → Bool) (timeout delay fuel k : Nat) :
    acquireLoop env timeout delay (fuel + 1) k =
      if env k = false then .acquired k
      else if timeout ≤ k * delay then .timedOut
      else acquireLoop env timeout delay fuel (k + 1) := rfl

/-- While the lockfile exists at every attempt, the retry loop reaches
the timeout branch provided the fuel lasts until `k * delay` exceeds
`timeout`. -/
theorem acquireLoop_const_true (timeout delay : Nat) :
    ∀ fuel k, timeout ≤ (k + fuel) * delay →
      acquireLoop (fun _ => true) timeout delay (fuel + 1) k = .timedOut := by
  intro fuel
  induction fuel with
  | zero =>
    intro k hk
    simp only [Nat.add_zero] at hk
    rw [acquireLoop_succ]
    simp [hk]
  | succ f ih =>
    intro k hk
    rw [acquireLoop_succ]
    by_cases h : timeout ≤ k * delay
    · simp [h]
    · have hk' : timeout ≤ ((k + 1) + f) * delay := by
        have harr : k + (f + 1) = (k + 1) + f := by omega
        rwa [harr] at hk
      simpa [h] using ih (k + 1) hk'

/-- When the lockfile never exists, the first attempt succeeds. -/
theorem acquireLoop_const_false (timeout delay : Nat) :
    ∀ fuel k, 0 < fuel →
      acquireLoop (fun _ => false) timeout delay fuel k = .acquired k := by
  intro fuel k h
  match fuel, h with
  | f + 1, _ => simp [acquireLoop]

/-- `acquire` against a permanently present lockfile raises the timeout
error whenever the retry delay is positive. -/
theorem acquire_const_true (timeout delay : Nat) (hd : 0 < delay) :
    acquire (fun _ => true) timeout delay = .timedOut := by
  rw [acquire]
  have hgoal : timeout ≤ (0 + (timeout / delay + 1)) * delay := by
    have hmod := Nat.div_add_mod timeout delay
    have hlt : timeout % delay < delay := Nat.mod_lt _ hd
    calc timeout = delay * (timeout / delay) + timeout % delay := hmod.symm
      _ ≤ delay * (timeout / delay) + delay := Nat.add_le_add_left hlt.le _
      _ = (0 + (timeout / delay + 1)) * delay := by ring
  exact acquireLoop_const_true timeout delay (timeout / delay + 1) 0 hgoal

/-- `acquire` against an absent lockfile succeeds on the first
attempt. -/
theorem acquire_const_false (timeout delay : Nat) :
    acquire (fun _ => false) timeout delay = .acquired 0 := by
  rw [acquire]
  exact acquireLoop_const_false timeout delay _ 0 (Nat.succ_pos _)

/-- The inductive invariant of the two-instance lock system as a
boolean: each holder's artifact exists on disk, and the two instances
never hold together. -/
def lockInvB (s : LockSys) : Bool :=
  (!s.held1 || s.lockfileExists) && (!s.held2 || s.lockfileExists) &&
    !(s.held1 && s.held2)

/-- Every action of either instance preserves the invariant. -/
theorem lockInvB_step (s : LockSys) (a : LockAction)
    (h : lockInvB s = true) : lockInvB (lockStep s a) = true := by
  rcases s with ⟨fe, h1, h2⟩
  revert h
  cases fe <;> cases h1 <;> cases h2 <;> cases a <;> decide

/-- Every reachable state of the two-instance system satisfies the
invariant. -/
theorem lockInvB_of_reachable {s : LockSys} (h : Reachable s) :
    lockInvB s = true := by
  induction h with
  | init => decide
  | step _ a ih => exact lockInvB_step _ a ih

end Filelock

namespace Quota

/-- Pointwise sum of a list of `(bytes, count)` pairs. -/
def pairSum (l : List (Nat × Nat)) : Nat × Nat :=
  l.foldr (fun p acc => (p.1 + acc.1, p.2 + acc.2)) (0, 0)

/-- The subfolder loop of `recalculate` sums exactly the recursive
totals of the non-`Trash` subfolders. -/
theorem recalcSubs_eq : ∀ subs : Subfolders,
    recalcSubs subs =
      pairSum (((subfolderList subs).filter
        (fun p => p.1 ≠ "Trash")).map (fun p => recalculate p.2))
  | .nil => by simp [recalcSubs, subfolderList, pairSum]
  | .cons name f rest => by
    have ih := recalcSubs_eq rest
    by_cases h : name = "Trash"
    · simp [recalcSubs, subfolderList, h, ih]
    · simp [recalcSubs, subfolderList, h, ih, pairSum]

/-- `quotaExceededBy` in propositional form. -/
theorem quotaExceededBy_iff (q : Option Int) (total : Int) :
    quotaExceededBy q total = true ↔
      ∃ n, q = some n ∧ n ≠ 0 ∧ n < total := by
  cases q with
  | none => simp [quotaExceededBy]
  | some n => simp [quotaExceededBy]

/-- A header entry `get_quota` can process without raising: empty, or
not tagged `S`/`C`, or tagged with a well-formed integer before the
tag. -/
def headerEntryOK (q : String) : Bool :=
  decide (q = "") ||
    (decide (lastChar q ≠ 'S') && decide (lastChar q ≠ 'C')) ||
    (parseInt? (dropLastChar q)).isSome

/-- The quota-entry loop succeeds on any list of processable entries. -/
theorem parseQuotaEntries_ok :
    ∀ (entries : List String) (sq cq : Option Int),
      entries.all headerEntryOK = true →
      ∃ r, parseQuotaEntries entries sq cq = .ok r := by
  intro entries
  induction entries with
  | nil => exact fun sq cq _ => ⟨(sq, cq), rfl⟩
  | cons q rest ih =>
    intro sq cq hall
    rw [List.all_cons, Bool.and_eq_true] at hall
    obtain ⟨hq, hrest⟩ := hall
    by_cases hqe : q = ""
    · simpa [parseQuotaEntries, hqe] using ih sq cq hrest
    · by_cases hS : lastChar q = 'S'
      · have hsome : (parseInt? (dropLastChar q)).isSome = true := by
          simpa [headerEntryOK, hqe, hS] using hq
        obtain ⟨n, hn⟩ := Option.isSome_iff_exists.mp hsome
        simpa [parseQuotaEntries, hqe, hS, hn] using ih (some n) cq hrest
      · by_cases hC : lastChar q = 'C'
        · have hsome : (parseInt? (dropLastChar q)).isSome = true := by
            simpa [headerEntryOK, hqe, hS, hC] using hq
          obtain ⟨n, hn⟩ := Option.isSome_iff_exists.mp hsome
          simpa [parseQuotaEntries, hqe, hS, hC, hn] using ih sq (some n) hrest
        · simpa [parseQuotaEntries, hqe, hS, hC] using ih sq cq hrest

end Quota

/-! ## Claims -/

/-- **C2.** For two `FileLock` instances on the same lockfile path it is
never the case that both are held simultaneously: every state reachable
by the two-instance system has at most one holder; while the lockfile
exists throughout, an `acquire` with positive retry delay raises the
timeout error; once the lockfile is gone an `acquire` succeeds at once;
and concretely, after the first holder releases, the second instance's
acquire succeeds. -/
theorem claim_c2_mutual_exclusion :
    (∀ s : Filelock.LockSys, Filelock.Reachable s →
        ¬(s.held1 = true ∧ s.held2 = true)) ∧
    (∀ timeout delay, 0 < delay →
        Filelock.acquire (fun _ => true) timeout delay = .timedOut) ∧
    (∀ timeout delay,
        Filelock.acquire (fun _ => false) timeout delay = .acquired 0) ∧
    Filelock.lockStep (Filelock.lockStep ⟨true, true, false⟩ .release1)
        .acquire2 = ⟨true, false, true⟩ := by
  refine ⟨?_, Filelock.acquire_const_true, Filelock.acquire_const_false,
    by decide⟩
  intro s hs hcontra
  have hinv := Filelock.lockInvB_of_reachable hs
  obtain ⟨h1, h2⟩ := hcontra
  simp [Filelock.lockInvB, h1, h2] at hinv

/-- Witness for C2: the state after instance 1 acquires from the initial
state is reachable and has a single holder; and a concrete blocked
acquire times out. -/
theorem claim_c2_witness :
    ¬((Filelock.lockStep ⟨false, false, false⟩ .acquire1).held1 = true ∧
      (Filelock.lockStep ⟨false, false, false⟩ .acquire1).held2 = true) ∧
    Filelock.acquire (fun _ => true) 100 5 = .timedOut :=
  ⟨claim_c2_mutual_exclusion.1 _
      (Filelock.Reachable.step Filelock.Reachable.init .acquire1),
   claim_c2_mutual_exclusion.2.1 100 5 (by decide)⟩

/-- **C7 (counterexample).** The claim says a held lock whose artifact
was already removed concurrently is released without raising; but
`release` reaches `os.unlink` unguarded, so it raises (`.error ()`) and
even leaves `is_locked` set. -/
theorem claim_c7_counterexample :
    Filelock.release ⟨true, false⟩ = (⟨true, false⟩, .error ()) := by
  decide

/-- **C7 (amended).** `release()` is a no-op when the lock is not held;
when held with the artifact present it removes the artifact and marks
the lock unheld without raising; but when the artifact was already
removed concurrently it raises `OSError` from `os.unlink` and leaves
`is_locked` set. -/
theorem claim_c7_release_behavior :
    (∀ fe, Filelock.release ⟨false, fe⟩ = (⟨false, fe⟩, .ok ())) ∧
    Filelock.release ⟨true, true⟩ = (⟨false, false⟩, .ok ()) ∧
    Filelock.release ⟨true, false⟩ = (⟨true, false⟩, .error ()) := by
  refine ⟨fun fe => ?_, by decide, by decide⟩
  cases fe <;> decide

/-- **C8.** A `with FileLock(...)` statement entered from the unheld
state with no artifact on disk (so that `__enter__`'s acquire succeeds)
ends with the lock unheld and the artifact removed on every exit path —
both when the body completes normally and when it raises, the exception
then propagating. -/
theorem claim_c8_with_releases :
    ∀ (timeout delay : Nat) (body : Filelock.BodyOutcome),
      Filelock.withLock ⟨false, false⟩ timeout delay body =
        (⟨false, false⟩,
          if body = .normal then .completed else .bodyRaised) := by
  intro timeout delay body
  simp [Filelock.withLock, Filelock.acquire_const_false, Filelock.release]

/-- **C1.** `recalculate()` returns the pair `(total_bytes,
total_count)`: the stat sizes and file count of `cur` and `new` plus the
summed recursive `recalculate()` results of every subfolder except
`Trash`; and whenever `get_quota` succeeds on the header, the returned
pair is identical whether the cache write happens (`lock = ok`) or is
skipped after a lock timeout, in which case the on-disk cache is left
exactly as it was. -/
theorem claim_c1_recalculate :
    (∀ (cur new : List Nat) (subs : Quota.Subfolders),
        Quota.recalculate (.node cur new subs) =
          (cur.sum + new.sum +
             (Quota.pairSum (((Quota.subfolderList subs).filter
                (fun p => p.1 ≠ "Trash")).map
                  (fun p => Quota.recalculate p.2))).1,
           cur.length + new.length +
             (Quota.pairSum (((Quota.subfolderList subs).filter
                (fun p => p.1 ≠ "Trash")).map
                  (fun p => Quota.recalculate p.2))).2)) ∧
    (∀ (f : Quota.Folder) (cache : Option (List String))
        (sq cq : Option Int),
        Quota.get_quota cache true = .ok (sq, cq) →
        Quota.recalculateOp f cache .timeout =
            .ok (cache, Quota.recalculate f) ∧
        Quota.recalculateOp f cache .ok =
            .ok (some [Quota.quotaHeader sq cq,
                toString (Quota.recalculate f).1 ++ " " ++
                  toString (Quota.recalculate f).2],
              Quota.recalculate f)) := by
  constructor
  · intro cur new subs
    rw [show Quota.recalculate (.node cur new subs) =
        (cur.sum + new.sum + (Quota.recalcSubs subs).1,
         cur.length + new.length + (Quota.recalcSubs subs).2) from rfl]
    rw [Quota.recalcSubs_eq]
  · intro f cache sq cq hq
    constructor <;> simp [Quota.recalculateOp, hq]

/-- Witness for C1: a concrete folder and an absent cache file, where
the lock times out: the totals are still returned and the cache is left
unwritten. -/
theorem claim_c1_witness :
    Quota.recalculateOp (.node [10] [20] .nil) none .timeout =
      .ok (none, Quota.recalculate (.node [10] [20] .nil)) :=
  (claim_c1_recalculate.2 (.node [10] [20] .nil) none none none
    (by decide)).1

/-- A state on which claim C3 and the code disagree: the cache file
holds a count quota of `1` and exactly one detail line recording five
messages, and was refreshed just now.  The claim's staleness condition
(quota exceeded AND (no detail lines OR older than the window)) is
false, yet `size` recalculates, because the code's `i == 0` test is also
true when there is exactly one detail line. -/
def sizeCexState : Quota.QuotaState :=
  { folder := .node [] [] .nil, cacheLines := some ["1C", "5 5"],
    cacheAge := 0, size_quota := none, count_quota := some 1 }

/-- **C3 (counterexample).** On `sizeCexState` the staleness condition
exactly as the claim words it is false, but `size` recalculates instead
of returning the cached `(5, 5)`. -/
theorem claim_c3_counterexample :
    Quota.size sizeCexState = .ok (.recalc (0, 0)) ∧
    Quota.claimStale sizeCexState = false ∧
    Quota.parseDetails ["5 5"] = some [(5, 5)] := by
  refine ⟨by decide, by decide, by decide⟩

/-- **C3 (amended).** `size()` returns the summed cached detail lines,
and calls `recalculate()` instead exactly when: the cache file does not
exist; or it exceeds 5120 bytes; or a truthy quota ceiling is exceeded
by the cached totals and either the cache has *at most one* detail line
or the cache file is older than the 900-second recency window (so with a
count quota of 1 and two recorded messages, `size()` recalculates only
when the file's age exceeds the window). -/
theorem claim_c3_size_staleness :
    (∀ st : Quota.QuotaState, st.cacheLines = none →
        Quota.size st = .ok (.recalc (Quota.recalculate st.folder))) ∧
    (∀ (st : Quota.QuotaState) (lines : List String),
        st.cacheLines = some lines → 5120 < Quota.fileSize lines →
        Quota.size st = .ok (.recalc (Quota.recalculate st.folder))) ∧
    (∀ (st : Quota.QuotaState) (lines : List String)
        (pairs : List (Int × Int)),
        st.cacheLines = some lines → Quota.fileSize lines ≤ 5120 →
        Quota.parseDetails lines.tail = some pairs →
        ((Quota.size st = .ok (.recalc (Quota.recalculate st.folder))) ↔
          (((∃ n, st.count_quota = some n ∧ n ≠ 0 ∧
                n < (pairs.map Prod.snd).sum) ∨
            (∃ n, st.size_quota = some n ∧ n ≠ 0 ∧
                n < (pairs.map Prod.fst).sum)) ∧
           (pairs.length ≤ 1 ∨ 900 < st.cacheAge))) ∧
        (¬(((∃ n, st.count_quota = some n ∧ n ≠ 0 ∧
                n < (pairs.map Prod.snd).sum) ∨
            (∃ n, st.size_quota = some n ∧ n ≠ 0 ∧
                n < (pairs.map Prod.fst).sum)) ∧
           (pairs.length ≤ 1 ∨ 900 < st.cacheAge)) →
          Quota.size st =
            .ok (.cached ((pairs.map Prod.fst).sum)
              ((pairs.map Prod.snd).sum)))) := by
  refine ⟨?_, ?_, ?_⟩
  · intro st h
    obtain ⟨f, cl, age, sq, cq⟩ := st
    cases h
    rfl
  · intro st lines h h5
    obtain ⟨f, cl, age, sq, cq⟩ := st
    cases h
    simp only [Quota.size]
    rw [if_pos h5]
  · intro st lines pairs h h5 hp
    obtain ⟨f, cl, age, sq, cq⟩ := st
    cases h
    simp only at hp ⊢
    have hcond :
        ((Quota.quotaExceededBy cq ((pairs.map Prod.snd).sum) ||
            Quota.quotaExceededBy sq ((pairs.map Prod.fst).sum)) &&
          (decide (pairs.length ≤ 1) || decide (900 < age))) = true ↔
        (((∃ n, cq = some n ∧ n ≠ 0 ∧ n < (pairs.map Prod.snd).sum) ∨
          (∃ n, sq = some n ∧ n ≠ 0 ∧ n < (pairs.map Prod.fst).sum)) ∧
         (pairs.length ≤ 1 ∨ 900 < age)) := by
      rw [Bool.and_eq_true, Bool.or_eq_true, Bool.or_eq_true,
        Quota.quotaExceededBy_iff, Quota.quotaExceededBy_iff,
        decide_eq_true_iff, decide_eq_true_iff]
    have hsz : Quota.size ⟨f, some lines, age, sq, cq⟩ =
        if ((Quota.quotaExceededBy cq ((pairs.map Prod.snd).sum) ||
              Quota.quotaExceededBy sq ((pairs.map Prod.fst).sum)) &&
            (decide (pairs.length ≤ 1) || decide (900 < age))) then
          .ok (.recalc (Quota.recalculate f))
        else
          .ok (.cached ((pairs.map Prod.fst).sum)
            ((pairs.map Prod.snd).sum)) := by
      simp only [Quota.size]
      rw [if_neg (by omega)]
      rw [hp]
    constructor
    · rw [hsz]
      rcases hb : ((Quota.quotaExceededBy cq ((pairs.map Prod.snd).sum) ||
          Quota.quotaExceededBy sq ((pairs.map Prod.fst).sum)) &&
          (decide (pairs.length ≤ 1) || decide (900 < age))) with _ | _
      · rw [if_neg (by simp [hb])]
        simp only [iff_def]
        constructor
        · intro hcontra
          exact absurd hcontra (by simp)
        · intro hpr
          exact absurd (hcond.mpr hpr) (by simp [hb])
      · rw [if_pos (by simp [hb])]
        simp only [true_iff]
        exact hcond.mp hb
    · intro hnot
      rw [hsz, if_neg]
      intro hb
      exact hnot (hcond.mp hb)

/-- A state with a count quota of 1, two detail lines and a fresh cache
file. -/
def sizeWitState : Quota.QuotaState :=
  { folder := .node [] [] .nil,
    cacheLines := some ["1C", "5 5", "7 7"], cacheAge := 0,
    size_quota := none, count_quota := some 1 }

/-- Witness for C3 (amended): with a count quota of 1, two detail lines
and a fresh file, `size` returns the cached totals without
recalculating. -/
theorem claim_c3_witness :
    Quota.size sizeWitState = .ok (.cached 12 12) :=
  (claim_c3_size_staleness.2.2 sizeWitState
      ["1C", "5 5", "7 7"] [(5, 5), (7, 7)] rfl (by decide)
      (by decide)).2
    (by
      rintro ⟨-, h2⟩
      rcases h2 with h2 | h2 <;> revert h2 <;> decide)

/-- **C4 (code bug).** The claim — matching `get_quota`, `recalculate`,
`set_quota` and the Maildir++ format the module documents — says the
fresh header written by `add` when the cache file is missing uses the
quota-marker format (`1000S,10C` for quotas 1000/10).  The code instead
writes `"%s %s"` of the raw attributes, producing `"1000 10"`, a header
its own `get_quota` cannot parse (the quotas are silently lost).
Evaluation at the failing input: quotas (1000, 10), no cache file,
adding a 100-byte message. -/
theorem claim_c4_add_header_bug :
    (Quota.add ⟨[], none, some 1000, some 10⟩ "key" 100 .ok .ok).1.cache =
      some ["1000 10", "100 1"] ∧
    Quota.quotaHeader (some 1000) (some 10) = "1000S,10C" ∧
    ("1000 10" : String) ≠ "1000S,10C" := by
  refine ⟨by decide, by decide, by decide⟩

/-- **C5.** A lock timeout during the cache write of `add` or `remove`
is absorbed: the call still returns `.ok`, the message store mutation
has happened and the cache is untouched.  A non-lock I/O error during
the cache write propagates (`.error ()`): for `add` the already-stored
message is not rolled back; for `remove` the error surfaces before
`super().remove` runs. -/
theorem claim_c5_lock_timeout_absorbed :
    (∀ (st : Quota.MailState) (key : String) (msgSize : Nat)
        (wr : Quota.WriteOutcome),
        Quota.add st key msgSize .timeout wr =
          ({ st with messages := st.messages ++ [(key, msgSize)] },
           .ok (key, msgSize))) ∧
    (∀ (st : Quota.MailState) (key : String) (msgSize : Nat),
        (Quota.add st key msgSize .ok .ioError).2 = .error () ∧
        (Quota.add st key msgSize .ok .ioError).1.messages =
          st.messages ++ [(key, msgSize)] ∧
        (Quota.add st key msgSize .ok .ioError).1.cache = st.cache) ∧
    (∀ (st : Quota.MailState) (key : String) (sz : Nat)
        (wr : Quota.WriteOutcome),
        Quota.lookupSize st.messages key = some sz →
        Quota.remove st key .timeout wr =
          ({ st with messages := Quota.removeKey st.messages key },
           .ok sz)) ∧
    (∀ (st : Quota.MailState) (key : String) (sz : Nat),
        Quota.lookupSize st.messages key = some sz →
        (Quota.remove st key .ok .ioError).2 = .error () ∧
        (Quota.remove st key .ok .ioError).1 = st) := by
  refine ⟨fun st key msgSize wr => rfl,
    fun st key msgSize => ⟨rfl, rfl, rfl⟩, ?_, ?_⟩
  · intro st key sz wr h
    simp [Quota.remove, h]
  · intro st key sz h
    simp [Quota.remove, h]

/-- Witness for C5: removing the sole message under a lock timeout
returns its size, removes it from the store, and leaves the cache
unwritten. -/
theorem claim_c5_witness :
    Quota.remove ⟨[("k", 7)], none, none, none⟩ "k" .timeout .ok =
      ({ messages := Quota.removeKey [("k", 7)] "k", cache := none,
         size_quota := none, count_quota := none }, .ok 7) :=
  claim_c5_lock_timeout_absorbed.2.2.1 ⟨[("k", 7)], none, none, none⟩
    "k" 7 .ok (by decide)

/-- **C6.** `set_quota` rewrites only the header line of the cache file,
leaving every accumulated detail line unchanged; and concretely
`set_quota(1000, 10)` writes the header `1000S,10C`, which `get_quota`
reads back as size quota 1000 and count quota 10. -/
theorem claim_c6_set_quota :
    (∀ (sq cq : Option Int) (first : String) (rest : List String),
        Quota.set_quota sq cq .ok (some (first :: rest)) =
          (some (Quota.quotaHeader sq cq :: rest), .ok ())) ∧
    Quota.quotaHeader (some 1000) (some 10) = "1000S,10C" ∧
    Quota.get_quota (some ["1000S,10C"]) true = .ok (some 1000, some 10) ∧
    Quota.set_quota (some 1000) (some 10) .ok
        (some ["", "30 2", "100 1"]) =
      (some ["1000S,10C", "30 2", "100 1"], .ok ()) := by
  exact ⟨fun sq cq first rest => rfl, by decide, by decide, by decide⟩

/-- **C9 (counterexample).** The claim says `get_quota` never raises on
a corrupt header; but the header `SS` (one entry whose last character is
the `S` tag with prefix `"S"`) makes `int("S")` raise a `ValueError`
that nothing catches. -/
theorem claim_c9_counterexample :
    Quota.get_quota (some ["SS"]) true = .error () := by decide

/-- **C9 (amended).** `get_quota` never raises on a missing or an
unreadable cache file (the `OSError` is caught), yielding "no quota
configured" in both cases, and succeeds on any header whose entries are
each empty, untagged, or a well-formed integer followed by the `S`/`C`
tag; but a tagged entry whose prefix is not a valid integer raises
`ValueError`. -/
theorem claim_c9_get_quota_tolerant :
    (∀ readable, Quota.get_quota none readable = .ok (none, none)) ∧
    (∀ lines, Quota.get_quota (some lines) false = .ok (none, none)) ∧
    (∀ lines : List String,
        (splitOnComma (pyStrip (lines.headD ""))).all
            Quota.headerEntryOK = true →
        ∃ r, Quota.get_quota (some lines) true = .ok r) := by
  refine ⟨fun readable => rfl, fun lines => rfl, fun lines h => ?_⟩
  simpa [Quota.get_quota] using
    Quota.parseQuotaEntries_ok _ none none h

/-- Witness for C9 (amended): a well-formed header parses without
raising. -/
theorem claim_c9_witness :
    ∃ r, Quota.get_quota (some ["1000S,10C"]) true = .ok r :=
  claim_c9_get_quota_tolerant.2.2 ["1000S,10C"] (by decide)

/-- **C10.** Whenever the quota-enabled `add` returns successfully it
returns the pair (storage key, stat-reported byte size of the stored
message), and whenever the quota-enabled `remove` returns successfully
it returns the stat-reported size the message had in the store *before*
it was deleted. -/
theorem claim_c10_returned_sizes :
    (∀ (st : Quota.MailState) (key : String) (msgSize : Nat)
        (lock : Quota.LockOutcome) (wr : Quota.WriteOutcome)
        (r : String × Nat),
        (Quota.add st key msgSize lock wr).2 = .ok r →
        r = (key, msgSize)) ∧
    (∀ (st : Quota.MailState) (key : String)
        (lock : Quota.LockOutcome) (wr : Quota.WriteOutcome) (v : Nat),
        (Quota.remove st key lock wr).2 = .ok v →
        Quota.lookupSize st.messages key = some v) := by
  constructor
  · intro st key msgSize lock wr r h
    cases lock <;> cases wr <;> simp [Quota.add] at h <;> exact h.symm
  · intro st key lock wr v h
    cases hls : Quota.lookupSize st.messages key with
    | none => simp [Quota.remove, hls] at h
    | some sz =>
      cases lock <;> cases wr <;> simp [Quota.remove, hls] at h <;>
        rw [h]

/-- Witness for C10: a concrete successful add and remove. -/
theorem claim_c10_witness :
    ((("k", 5) : String × Nat) = ("k", 5)) ∧
    Quota.lookupSize [("k", 5)] "k" = some 5 :=
  ⟨claim_c10_returned_sizes.1 ⟨[], none, none, none⟩ "k" 5 .ok .ok
      ("k", 5) (by decide),
   claim_c10_returned_sizes.2 ⟨[("k", 5)], none, none, none⟩ "k" .ok .ok
      5 (by decide)⟩

end SeMailbox
